import Mathlib

/-!
Shallow embedding of the quantitative core of `Pm.py` (portfolio analytics):
metric computation from a return series (`calculate_portfolio_metrics`), the
portfolio-weight optimizer wrappers (`maximize_sharpe_ratio`,
`global_minimum_variance`), the Monte Carlo value-at-risk simulation
(`perform_monte_carlo_var`), the return aggregation of
`portfolio_management_interface`, and the error handling of
`get_stock_value` and the top-level interface.

Real-number float arithmetic is modelled over `ℚ`.  Calls into external
libraries are abstracted as explicit function parameters: a `sqrt` parameter
for `np.sqrt` and the square root inside `np.std`, a `shapiro` parameter for
`scipy.stats.shapiro`, an `exp` parameter for `np.exp`, a `minimize`
parameter for `scipy.optimize.minimize`, and a draw stream for
`np.random.normal`.  Float division is modelled by `npDiv`, which keeps
numpy's division-by-zero semantics (±∞ or NaN instead of an error).
-/

namespace Pm

/-- Model of a numpy floating-point scalar: a finite rational, one of the two
infinities, or NaN (numpy's `np.nan`, the "undefined" marker of the data
model). -/
inductive NpFloat where
  | finite (q : ℚ)
  | posInf
  | negInf
  | nan
deriving DecidableEq

/-- numpy float division: dividing a finite nonzero value by zero yields ±∞,
and 0/0 yields NaN, rather than raising an error.  Non-finite operands do not
arise in this development. -/
def npDiv (a b : NpFloat) : NpFloat :=
  match a, b with
  | NpFloat.finite p, NpFloat.finite q =>
      if q = 0 then
        if 0 < p then NpFloat.posInf
        else if p < 0 then NpFloat.negInf
        else NpFloat.nan
      else NpFloat.finite (p / q)
  | _, _ => NpFloat.nan

/-- Subtract a rational constant from a float (used for the `- 3` of excess
kurtosis); NaN and the infinities absorb the subtraction. -/
def npSubConst (a : NpFloat) (c : ℚ) : NpFloat :=
  match a with
  | NpFloat.finite q => NpFloat.finite (q - c)
  | x => x

/-- `np.mean` over a list of rationals.  Callers guard against the empty
list, on which numpy would return NaN. -/
def listMean (l : List ℚ) : ℚ := l.sum / l.length

/-- Population central moment of order `k` about the mean, as used by
`np.std` (k = 2), `scipy.stats.skew` (k = 3) and `scipy.stats.kurtosis`
(k = 4); all three use the biased (population) convention by default. -/
def central_moment (l : List ℚ) (k : ℕ) : ℚ :=
  (l.map (fun x => (x - listMean l) ^ k)).sum / l.length

/-- `np.percentile` on an already sorted list, with numpy's default linear
interpolation: the value at fractional rank `h = (n - 1) * q / 100` is
`s[⌊h⌋] + (h - ⌊h⌋) * (s[⌊h⌋ + 1] - s[⌊h⌋])`. -/
def percentileSorted (s : List ℚ) (q : ℚ) : ℚ :=
  let h : ℚ := ((s.length : ℚ) - 1) * q / 100
  let i : ℕ := Int.toNat ⌊h⌋
  let lo := s.getD i 0
  lo + (h - (i : ℚ)) * (s.getD (i + 1) lo - lo)

/-- `np.percentile(l, q)`: sort, then interpolate between order statistics. -/
def np_percentile (l : List ℚ) (q : ℚ) : ℚ :=
  percentileSorted (List.insertionSort (fun a b => a ≤ b) l) q

/-- `var_95 = np.percentile(returns, 5)` (line 105 of `Pm.py`). -/
def var95_of (returns : List ℚ) : ℚ := np_percentile returns 5

/-- The boolean-mask selection `returns[returns <= var_95]` of line 106. -/
def cvar_tail (returns : List ℚ) : List ℚ :=
  returns.filter (fun r => decide (r ≤ var95_of returns))

/-- The result dictionary of `calculate_portfolio_metrics`: nine statistics,
each a numpy float (possibly `np.nan`).  The dictionary key `'return'` is a
keyword here and is rendered as `ret`. -/
structure MetricsResult where
  ret : NpFloat
  volatility : NpFloat
  sharpe_ratio : NpFloat
  skewness : NpFloat
  kurtosis : NpFloat
  shapiro_p_value : NpFloat
  cumulative_return : NpFloat
  var_95 : NpFloat
  cvar_95 : NpFloat
deriving DecidableEq

/-- `np.mean(returns) * 252` (line 98). -/
def annualized_return (returns : List ℚ) : ℚ := listMean returns * 252

/-- `np.std(returns) * np.sqrt(252)` (line 99), with the external square
root abstracted as the `sqrt` parameter: `np.std` is the square root of the
population variance. -/
def annualized_volatility (sqrt : ℚ → ℚ) (returns : List ℚ) : ℚ :=
  sqrt (central_moment returns 2) * sqrt 252

/-- `calculate_portfolio_metrics` (lines 84–118 of `Pm.py`).  For fewer than
two observations every field is `np.nan`; otherwise the nine statistics are
computed.  The external `np.sqrt` and `scipy.stats.shapiro` are the
parameters `sqrt` and `shapiro`.  The Sharpe ratio is an unguarded float
division (line 100), hence `npDiv`.  `scipy.stats.skew` is `m₃ / m₂^(3/2)`
and `scipy.stats.kurtosis` is `m₄ / m₂² - 3`; `returns[returns <= var_95]
.mean()` is NaN on an empty selection and the tail mean otherwise. -/
def calculate_portfolio_metrics (sqrt : ℚ → ℚ) (shapiro : List ℚ → ℚ)
    (returns : List ℚ) : MetricsResult :=
  if returns.length < 2 then
    { ret := NpFloat.nan
      volatility := NpFloat.nan
      sharpe_ratio := NpFloat.nan
      skewness := NpFloat.nan
      kurtosis := NpFloat.nan
      shapiro_p_value := NpFloat.nan
      cumulative_return := NpFloat.nan
      var_95 := NpFloat.nan
      cvar_95 := NpFloat.nan }
  else
    { ret := NpFloat.finite (annualized_return returns)
      volatility := NpFloat.finite (annualized_volatility sqrt returns)
      sharpe_ratio := npDiv (NpFloat.finite (annualized_return returns))
        (NpFloat.finite (annualized_volatility sqrt returns))
      skewness := npDiv (NpFloat.finite (central_moment returns 3))
        (NpFloat.finite (central_moment returns 2 * sqrt (central_moment returns 2)))
      kurtosis := npSubConst (npDiv (NpFloat.finite (central_moment returns 4))
        (NpFloat.finite (central_moment returns 2 ^ 2))) 3
      shapiro_p_value := NpFloat.finite (shapiro returns)
      cumulative_return := NpFloat.finite ((returns.map (fun r => 1 + r)).prod - 1)
      var_95 := NpFloat.finite (var95_of returns)
      cvar_95 :=
        if (cvar_tail returns).length = 0 then NpFloat.nan
        else NpFloat.finite ((cvar_tail returns).sum / ((cvar_tail returns).length : ℚ)) }

/-- Concrete stand-in for the abstract `sqrt` parameter, agreeing with the
real square root at 0 and positive elsewhere on positives. -/
def sqrtW : ℚ → ℚ := fun q => max q 0

/-- Concrete stand-in for the abstract `shapiro` parameter (a p-value). -/
def shapiroW : List ℚ → ℚ := fun _ => 1 / 2

/-! ## Optimizer (`maximize_sharpe_ratio`, `global_minimum_variance`)

Both functions build a uniform initial guess, box bounds `[0, 1]` and the
budget equality constraint, hand the problem to `scipy.optimize.minimize`
(abstracted here as the `minimize` parameter, mapping the initial guess to
the solver's `OptimizeResult`), and return `result.x` — without inspecting
`result.success` (lines 193–213 of `Pm.py`). -/

/-- The fields of `scipy.optimize.OptimizeResult` that the code could
consult: the solution vector `x` and the convergence flag `success`. -/
structure OptimizeResult where
  x : List ℚ
  success : Bool
deriving DecidableEq

/-- `initial_guess = num_stocks * [1. / num_stocks]` (lines 195 and 205). -/
def initial_guess (num_stocks : ℕ) : List ℚ :=
  List.replicate num_stocks (1 / (num_stocks : ℚ))

/-- `maximize_sharpe_ratio` (lines 193–201): call the solver on the initial
guess (with the negative-Sharpe objective, SLSQP, bounds and the sum-to-one
constraint all fixed inside the call) and return `result.x` unchecked. -/
def maximize_sharpe_ratio (minimize : List ℚ → OptimizeResult)
    (num_stocks : ℕ) : List ℚ :=
  (minimize (initial_guess num_stocks)).x

/-- `global_minimum_variance` (lines 203–213): call the solver on the initial
guess (with the portfolio-volatility objective, bounds and the sum-to-one
constraint fixed inside the call) and return `result.x` unchecked. -/
def global_minimum_variance (minimize : List ℚ → OptimizeResult)
    (num_stocks : ℕ) : List ℚ :=
  (minimize (initial_guess num_stocks)).x

/-! ## Monte Carlo simulation (`perform_monte_carlo_var`, lines 229–254)

`np.random.normal(μ, σ, (iterations, T))` is abstracted as a draw stream
`stream : ℕ → ℚ` read in row-major order (the ambient global numpy RNG: the
function takes no seed).  `np.exp` is the `exp` parameter.  The estimated
`μ, σ` parameterize only the distribution of the draws, not the data flow
from the draw matrix to the reported statistics, so they do not appear. -/

/-- `np.cumsum` along one row. -/
def cumsum : List ℚ → List ℚ
  | [] => []
  | x :: xs => x :: (cumsum xs).map (fun y => x + y)

/-- `simulated_returns = np.exp(simulations.cumsum(axis=1))` (line 242). -/
def simulated_matrix (exp : ℚ → ℚ) (simulations : List (List ℚ)) : List (List ℚ) :=
  simulations.map (fun row => (cumsum row).map exp)

/-- `simulated_returns[:, -1]`: the terminal value of each path. -/
def terminal_values (sim : List (List ℚ)) : List ℚ :=
  sim.map (fun row => row.getLastD 0)

/-- `var_95 = np.percentile(simulated_returns[:, -1], 5)` (line 244). -/
def mc_var_95 (sim : List (List ℚ)) : ℚ :=
  np_percentile (terminal_values sim) 5

/-- `cvar_95 = simulated_returns[simulated_returns[:, -1] <= var_95].mean()`
(line 245): the boolean mask on the terminal column selects whole rows of
the 2-D array, and `.mean()` then averages every entry of the selected
rows — all time steps, not only the terminal values. -/
def mc_cvar_95 (sim : List (List ℚ)) : NpFloat :=
  let sel := (sim.filter (fun row => decide (row.getLastD 0 ≤ mc_var_95 sim))).flatten
  if sel.length = 0 then NpFloat.nan
  else NpFloat.finite (sel.sum / (sel.length : ℚ))

/-- Modelled from the spec (§4.4, §4.2), for comparison with `mc_cvar_95`:
"var95/cvar95 computed on the terminal-value distribution", with
"cvar95 = mean of all returns ≤ var95" — i.e. the mean of exactly those
terminal values that are at most the simulated var95. -/
def mc_cvar_95_terminal (sim : List (List ℚ)) : ℚ :=
  let tail := (terminal_values sim).filter (fun t => decide (t ≤ mc_var_95 sim))
  tail.sum / (tail.length : ℚ)

/-- The `SimulationResult` record of the data model: simulated VaR, simulated
CVaR, and the terminal-value distribution handed to the histogram. -/
structure SimulationResult where
  var_95 : ℚ
  cvar_95 : NpFloat
  terminal_values : List ℚ
deriving DecidableEq

/-- The statistics lines 241–245 compute from a draw matrix. -/
def mc_result (exp : ℚ → ℚ) (simulations : List (List ℚ)) : SimulationResult :=
  { var_95 := mc_var_95 (simulated_matrix exp simulations)
    cvar_95 := mc_cvar_95 (simulated_matrix exp simulations)
    terminal_values := terminal_values (simulated_matrix exp simulations) }

/-- The `(iterations, T)`-shaped draw matrix `np.random.normal(μ, σ,
(iterations, len(returns)))` (line 241), reading the ambient RNG stream in
row-major order. -/
def draws_matrix (stream : ℕ → ℚ) (iterations T : ℕ) : List (List ℚ) :=
  (List.range iterations).map (fun i =>
    (List.range T).map (fun j => stream (i * T + j)))

/-- `perform_monte_carlo_var` (lines 229–254): with fewer than two stocks in
the portfolio it warns and returns without simulating (`none`); otherwise it
draws the matrix from the ambient RNG stream and reports the simulated
statistics.  `T` is `len(returns)`, the number of periods.  There is no seed
parameter: the stream is ambient global state, not a caller input. -/
def perform_monte_carlo_var (exp : ℚ → ℚ) (portfolio : List (String × ℚ))
    (iterations : ℕ) (stream : ℕ → ℚ) (T : ℕ) : Option SimulationResult :=
  if portfolio.length < 2 then none
  else some (mc_result exp (draws_matrix stream iterations T))

/-! ## Aggregation and error handling in `portfolio_management_interface` -/

/-- `weights = np.array([...]); weights = weights / np.sum(weights)`
(lines 284–285). -/
def normalize_weights (quantities : List ℚ) : List ℚ :=
  quantities.map (fun q => q / quantities.sum)

/-- Lines 288–291: the single-asset case is special-cased as a scalar
multiply (`returns * weights[0]` on the one-column frame), the multi-asset
case is the dot product `returns.dot(weights)` row by row. -/
def portfolio_returns_calc (returns : List (List ℚ)) (weights : List ℚ) : List ℚ :=
  if weights.length = 1 then
    returns.map (fun row => row.headD 0 * weights.headD 0)
  else
    returns.map (fun row => ((row.zip weights).map (fun p => p.1 * p.2)).sum)

/-- `get_stock_value` (lines 12–21): the fetched current price (already
`Except`-shaped: the external `yfinance` call may fail) is multiplied by the
quantity; any exception is caught, an error message is displayed, and the
literal `0` is returned in place of the value. -/
def get_stock_value (fetch_price : Except String ℚ) (quantity : ℚ) : ℚ :=
  match fetch_price with
  | Except.ok current_price => current_price * quantity
  | Except.error _ => 0

/-- The outermost `try/except` of `portfolio_management_interface`
(lines 256–311): whatever the body does — including raising — the handler is
`pass`, so the caller always observes a normal, valueless completion. -/
def portfolio_management_interface (body : Except String Unit) : Except String Unit :=
  match body with
  | Except.ok u => Except.ok u
  | Except.error _ => Except.ok ()

/-- Concrete stand-in for the abstract `exp` parameter (strictly positive on
the arguments where it is evaluated in the closed statements below). -/
def expW : ℚ → ℚ := fun q => q + 10

/-! ## Lemmas about the interpolated percentile -/

/-- The interpolated percentile of a sorted list is bounded below by the
first (smallest) element. -/
lemma headD_le_percentileSorted (s : List ℚ) (hs : List.Sorted (fun a b => a ≤ b) s)
    (hne : s ≠ []) : s.getD 0 0 ≤ percentileSorted s 5 := by
  have hn : 0 < s.length := List.length_pos.mpr hne
  have hn1 : (1 : ℚ) ≤ (s.length : ℚ) := by exact_mod_cast hn
  set h : ℚ := ((s.length : ℚ) - 1) * 5 / 100 with hh_def
  have h0 : 0 ≤ h := by
    apply div_nonneg _ (by norm_num)
    nlinarith
  have hfl : 0 ≤ ⌊h⌋ := Int.floor_nonneg.mpr h0
  set i : ℕ := Int.toNat ⌊h⌋ with hi_def
  have hicast : (i : ℚ) ≤ h := by
    have hz : ((i : ℤ) : ℚ) ≤ h := by
      rw [hi_def, Int.toNat_of_nonneg hfl]
      exact Int.floor_le h
    exact_mod_cast hz
  have hhn : h ≤ (s.length : ℚ) - 1 := by
    have he : h = ((s.length : ℚ) - 1) * (1 / 20) := by rw [hh_def]; ring
    rw [he]
    exact mul_le_of_le_one_right (by linarith) (by norm_num)
  have hiltn : i < s.length := by
    have hq : (i : ℚ) < (s.length : ℚ) := lt_of_le_of_lt (hicast.trans hhn) (by linarith)
    exact_mod_cast hq
  have hres : percentileSorted s 5
      = s.getD i 0 + (h - (i : ℚ)) * (s.getD (i + 1) (s.getD i 0) - s.getD i 0) := rfl
  have h0le : s.getD 0 0 ≤ s.getD i 0 := by
    rw [List.getD_eq_getElem s 0 hn, List.getD_eq_getElem s 0 hiltn]
    have hg := hs.rel_get_of_le (a := ⟨0, hn⟩) (b := ⟨i, hiltn⟩)
      (Fin.mk_le_mk.mpr (Nat.zero_le i))
    simpa using hg
  have hγ : 0 ≤ h - (i : ℚ) := by linarith
  have hlohi : s.getD i 0 ≤ s.getD (i + 1) (s.getD i 0) := by
    by_cases hi1 : i + 1 < s.length
    · rw [List.getD_eq_getElem s (s.getD i 0) hi1]
      conv_lhs => rw [List.getD_eq_getElem s 0 hiltn]
      have hg := hs.rel_get_of_le (a := ⟨i, hiltn⟩) (b := ⟨i + 1, hi1⟩)
        (Fin.mk_le_mk.mpr (Nat.le_succ i))
      simpa using hg
    · have hd : s.getD (i + 1) (s.getD i 0) = s.getD i 0 :=
        List.getD_eq_default s _ (by omega)
      exact le_of_eq hd.symm
  rw [hres]
  nlinarith [mul_nonneg hγ (sub_nonneg.mpr hlohi)]

/-- Some element of a nonempty list lies at or below its 5th percentile. -/
lemma exists_mem_le_var95 (l : List ℚ) (hne : l ≠ []) :
    ∃ x ∈ l, x ≤ var95_of l := by
  have hperm : (List.insertionSort (fun a b => a ≤ b) l).Perm l :=
    List.perm_insertionSort _ l
  have hsorted : List.Sorted (fun a b => a ≤ b) (List.insertionSort (fun a b => a ≤ b) l) :=
    List.sorted_insertionSort _ l
  have hsne : List.insertionSort (fun a b => a ≤ b) l ≠ [] := by
    intro hnil
    apply hne
    apply List.length_eq_zero.mp
    rw [← hperm.length_eq, hnil]
    rfl
  have h0 : 0 < (List.insertionSort (fun a b => a ≤ b) l).length :=
    List.length_pos.mpr hsne
  refine ⟨(List.insertionSort (fun a b => a ≤ b) l).getD 0 0, ?_, ?_⟩
  · have hmem : (List.insertionSort (fun a b => a ≤ b) l).getD 0 0
        ∈ List.insertionSort (fun a b => a ≤ b) l := by
      rw [List.getD_eq_getElem _ 0 h0]
      exact List.getElem_mem h0
    exact hperm.mem_iff.mp hmem
  · exact headD_le_percentileSorted _ hsorted hsne

/-- The tail selection `returns[returns <= var_95]` is nonempty whenever the
series is. -/
lemma cvar_tail_ne_nil (returns : List ℚ) (hne : returns ≠ []) :
    cvar_tail returns ≠ [] := by
  obtain ⟨x, hxmem, hxle⟩ := exists_mem_le_var95 returns hne
  have hx : x ∈ cvar_tail returns := by
    rw [cvar_tail, List.mem_filter]
    exact ⟨hxmem, decide_eq_true hxle⟩
  exact List.ne_nil_of_mem hx

/-- The mean of the tail selection is at most the 5th-percentile cutoff. -/
lemma cvar_tail_mean_le_var95 (returns : List ℚ) (hne : cvar_tail returns ≠ []) :
    (cvar_tail returns).sum / ((cvar_tail returns).length : ℚ) ≤ var95_of returns := by
  have hmem : ∀ x ∈ cvar_tail returns, x ≤ var95_of returns := by
    intro x hx
    rw [cvar_tail, List.mem_filter] at hx
    exact of_decide_eq_true hx.2
  have hsum : (cvar_tail returns).sum ≤ (cvar_tail returns).length • var95_of returns :=
    List.sum_le_card_nsmul _ _ hmem
  have hlen : 0 < (cvar_tail returns).length := List.length_pos.mpr hne
  rw [nsmul_eq_mul] at hsum
  rw [div_le_iff₀ (by exact_mod_cast hlen)]
  calc (cvar_tail returns).sum ≤ ((cvar_tail returns).length : ℚ) * var95_of returns := hsum
    _ = var95_of returns * ((cvar_tail returns).length : ℚ) := by ring

/-! ## Claims about the metrics engine -/

/-- Claim C1: for every return series of length < 2,
`calculate_portfolio_metrics` returns a result in which every one of the
nine fields is the explicit undefined marker (`np.nan`); it never raises and
never substitutes zero for any field. -/
theorem metrics_short_series_all_nan (sqrt : ℚ → ℚ) (shapiro : List ℚ → ℚ)
    (returns : List ℚ) (hshort : returns.length < 2) :
    calculate_portfolio_metrics sqrt shapiro returns =
      { ret := NpFloat.nan
        volatility := NpFloat.nan
        sharpe_ratio := NpFloat.nan
        skewness := NpFloat.nan
        kurtosis := NpFloat.nan
        shapiro_p_value := NpFloat.nan
        cumulative_return := NpFloat.nan
        var_95 := NpFloat.nan
        cvar_95 := NpFloat.nan } := by
  rw [calculate_portfolio_metrics, if_pos hshort]

/-- Witness for C1 at the one-element series `[3/7]`. -/
theorem metrics_short_series_all_nan_witness :
    calculate_portfolio_metrics sqrtW shapiroW [3/7] =
      { ret := NpFloat.nan
        volatility := NpFloat.nan
        sharpe_ratio := NpFloat.nan
        skewness := NpFloat.nan
        kurtosis := NpFloat.nan
        shapiro_p_value := NpFloat.nan
        cumulative_return := NpFloat.nan
        var_95 := NpFloat.nan
        cvar_95 := NpFloat.nan } :=
  metrics_short_series_all_nan sqrtW shapiroW [3/7] (by decide)

/-- Claim C5, counterexample: on the constant series `[1/100, 1/100, 1/100]`
the annualized volatility is 0, and the Sharpe-ratio field is the float
division result `+∞` — not the undefined marker the claim requires. -/
theorem sharpe_ratio_infinite_at_zero_volatility :
    annualized_volatility sqrtW [1/100, 1/100, 1/100] = 0
    ∧ (calculate_portfolio_metrics sqrtW shapiroW [1/100, 1/100, 1/100]).sharpe_ratio
        = NpFloat.posInf
    ∧ (calculate_portfolio_metrics sqrtW shapiroW [1/100, 1/100, 1/100]).sharpe_ratio
        ≠ NpFloat.nan := by
  refine ⟨by with_unfolding_all decide, by with_unfolding_all decide,
    by with_unfolding_all decide⟩

/-- Claim C5, amended: for series of length ≥ 2 the Sharpe-ratio field is
the unguarded float quotient of annualized return by annualized volatility:
the true ratio when the volatility is nonzero, and ±∞ (or NaN for 0/0) — not
the undefined marker — when the volatility is zero. -/
theorem sharpe_ratio_unguarded_division (sqrt : ℚ → ℚ) (shapiro : List ℚ → ℚ)
    (returns : List ℚ) (h2 : 2 ≤ returns.length) :
    (calculate_portfolio_metrics sqrt shapiro returns).sharpe_ratio
      = npDiv (NpFloat.finite (annualized_return returns))
          (NpFloat.finite (annualized_volatility sqrt returns))
    ∧ (annualized_volatility sqrt returns ≠ 0 →
        (calculate_portfolio_metrics sqrt shapiro returns).sharpe_ratio
          = NpFloat.finite (annualized_return returns / annualized_volatility sqrt returns))
    ∧ (annualized_volatility sqrt returns = 0 → 0 < annualized_return returns →
        (calculate_portfolio_metrics sqrt shapiro returns).sharpe_ratio
          = NpFloat.posInf) := by
  have hfield : (calculate_portfolio_metrics sqrt shapiro returns).sharpe_ratio
      = npDiv (NpFloat.finite (annualized_return returns))
          (NpFloat.finite (annualized_volatility sqrt returns)) := by
    rw [calculate_portfolio_metrics, if_neg (by omega)]
  refine ⟨hfield, ?_, ?_⟩
  · intro hvol
    rw [hfield, npDiv, if_neg hvol]
  · intro hvol hret
    rw [hfield, npDiv, if_pos hvol, if_pos hret]

/-- Witness for the amended C5 at `[1/10, 2/10, 3/10]`, whose volatility is
nonzero under the concrete square-root stand-in. -/
theorem sharpe_ratio_unguarded_division_witness :
    (calculate_portfolio_metrics sqrtW shapiroW [1/10, 2/10, 3/10]).sharpe_ratio
      = NpFloat.finite (annualized_return [1/10, 2/10, 3/10]
          / annualized_volatility sqrtW [1/10, 2/10, 3/10]) :=
  ((sharpe_ratio_unguarded_division sqrtW shapiroW [1/10, 2/10, 3/10]
    (by decide)).2.1) (by with_unfolding_all decide)

/-- Claim C6: for every return series of length ≥ 2, the tail selection used
for `cvar_95` is nonempty, the reported `cvar_95` is its mean, and this mean
is at most the reported `var_95` (the 5th percentile). -/
theorem metrics_cvar_le_var (sqrt : ℚ → ℚ) (shapiro : List ℚ → ℚ)
    (returns : List ℚ) (h2 : 2 ≤ returns.length) :
    cvar_tail returns ≠ []
    ∧ (calculate_portfolio_metrics sqrt shapiro returns).var_95
        = NpFloat.finite (var95_of returns)
    ∧ (calculate_portfolio_metrics sqrt shapiro returns).cvar_95
        = NpFloat.finite ((cvar_tail returns).sum / ((cvar_tail returns).length : ℚ))
    ∧ (cvar_tail returns).sum / ((cvar_tail returns).length : ℚ) ≤ var95_of returns := by
  have hne : returns ≠ [] := by
    intro hnil
    rw [hnil] at h2
    simp at h2
  have htail := cvar_tail_ne_nil returns hne
  have hlen : ¬ (cvar_tail returns).length = 0 := by
    simpa [List.length_eq_zero] using htail
  refine ⟨htail, ?_, ?_, cvar_tail_mean_le_var95 returns htail⟩
  · rw [calculate_portfolio_metrics, if_neg (by omega)]
  · rw [calculate_portfolio_metrics, if_neg (by omega)]
    simp only [if_neg hlen]

/-- Witness for C6 at the series `[1/10, -1/5, 3/10]`. -/
theorem metrics_cvar_le_var_witness :
    cvar_tail [1/10, -1/5, 3/10] ≠ []
    ∧ (calculate_portfolio_metrics sqrtW shapiroW [1/10, -1/5, 3/10]).var_95
        = NpFloat.finite (var95_of [1/10, -1/5, 3/10])
    ∧ (calculate_portfolio_metrics sqrtW shapiroW [1/10, -1/5, 3/10]).cvar_95
        = NpFloat.finite ((cvar_tail [1/10, -1/5, 3/10]).sum
            / ((cvar_tail [1/10, -1/5, 3/10]).length : ℚ))
    ∧ (cvar_tail [1/10, -1/5, 3/10]).sum / ((cvar_tail [1/10, -1/5, 3/10]).length : ℚ)
        ≤ var95_of [1/10, -1/5, 3/10] :=
  metrics_cvar_le_var sqrtW shapiroW [1/10, -1/5, 3/10] (by decide)

/-! ## Claims about the Monte Carlo simulator -/

/-- Claim C2 (code bug): on the concrete draw matrix `[[-9, 1], [0, 0]]`
the reported simulated cvar95 averages every time-step value of the selected
tail paths (the 2-D boolean-mask indexing of line 245 selects whole rows),
and differs from the mean of exactly those terminal values that are at most
the simulated var95, which the contract prescribes. -/
theorem mc_cvar_mean_mixes_nonterminal_values :
    mc_var_95 (simulated_matrix expW [[-9, 1], [0, 0]]) = 12/5
    ∧ mc_cvar_95 (simulated_matrix expW [[-9, 1], [0, 0]]) = NpFloat.finite (3/2)
    ∧ mc_cvar_95_terminal (simulated_matrix expW [[-9, 1], [0, 0]]) = 2
    ∧ NpFloat.finite (3/2) ≠ NpFloat.finite (2 : ℚ) := by
  refine ⟨?_, ?_, ?_, ?_⟩ <;> with_unfolding_all decide

/-- Claim C9, counterexample: two invocations with identical caller-supplied
inputs (portfolio, iteration count, period count) but different ambient RNG
draw streams — the situation of two unseeded production runs — produce
different `SimulationResult`s; the function has no seed parameter that could
pin the stream down. -/
theorem mc_identical_inputs_different_draws_differ :
    perform_monte_carlo_var expW [("AAPL", 10), ("MSFT", 5)] 2 (fun _ => 0) 2
      ≠ perform_monte_carlo_var expW [("AAPL", 10), ("MSFT", 5)] 2 (fun _ => 1) 2 := by
  with_unfolding_all decide

/-- Claim C9, amended: the simulator accepts no seed; its output is a
function of the inputs together with the ambient draw stream.  Two runs that
read the same first `iterations * T` draws coincide exactly. -/
theorem mc_deterministic_in_draw_stream (exp : ℚ → ℚ) (s₁ s₂ : ℕ → ℚ)
    (iterations T : ℕ) (h : ∀ k, k < iterations * T → s₁ k = s₂ k) :
    draws_matrix s₁ iterations T = draws_matrix s₂ iterations T
    ∧ mc_result exp (draws_matrix s₁ iterations T)
        = mc_result exp (draws_matrix s₂ iterations T) := by
  have hd : draws_matrix s₁ iterations T = draws_matrix s₂ iterations T := by
    rw [draws_matrix, draws_matrix]
    apply List.map_congr_left
    intro i hi
    apply List.map_congr_left
    intro j hj
    rw [List.mem_range] at hi hj
    apply h
    calc i * T + j < i * T + T := by omega
      _ = (i + 1) * T := by ring
      _ ≤ iterations * T := Nat.mul_le_mul_right T hi
  exact ⟨hd, by rw [hd]⟩

/-- Witness for the amended C9: streams agreeing on the first
`2 * 3` draws yield identical draw matrices and results. -/
theorem mc_deterministic_in_draw_stream_witness :
    draws_matrix (fun _ => 0) 2 3 = draws_matrix (fun k => if k < 6 then 0 else 5) 2 3
    ∧ mc_result expW (draws_matrix (fun _ => 0) 2 3)
        = mc_result expW (draws_matrix (fun k => if k < 6 then 0 else 5) 2 3) :=
  mc_deterministic_in_draw_stream expW (fun _ => 0) (fun k => if k < 6 then 0 else 5) 2 3
    (by with_unfolding_all decide)

/-- Claim C10: with fewer than two stocks in the portfolio,
`perform_monte_carlo_var` returns without computing any simulated
distribution or tail statistics. -/
theorem mc_requires_two_assets (exp : ℚ → ℚ) (portfolio : List (String × ℚ))
    (iterations : ℕ) (stream : ℕ → ℚ) (T : ℕ) (hp : portfolio.length < 2) :
    perform_monte_carlo_var exp portfolio iterations stream T = none := by
  rw [perform_monte_carlo_var, if_pos hp]

/-- Witness for C10 at a single-stock portfolio. -/
theorem mc_requires_two_assets_witness :
    perform_monte_carlo_var expW [("AAPL", 10)] 1000 (fun _ => 0) 5 = none :=
  mc_requires_two_assets expW [("AAPL", 10)] 1000 (fun _ => 0) 5 (by decide)

/-! ## Claims about the optimizer -/

/-- A solver outcome reporting non-convergence together with an unusable
iterate, as SLSQP can produce on failure. -/
def failedSolver : List ℚ → OptimizeResult := fun _ => { x := [2, 2], success := false }

/-- Claim C3, counterexample: when the solver reports `success = false`,
both optimizer entry points still return the solver's unchecked result
vector; no non-convergence error is surfaced. -/
theorem optimizer_returns_unchecked_on_failure :
    (failedSolver (initial_guess 2)).success = false
    ∧ maximize_sharpe_ratio failedSolver 2 = [2, 2]
    ∧ global_minimum_variance failedSolver 2 = [2, 2] :=
  ⟨rfl, rfl, rfl⟩

/-- Claim C3, amended: both optimizer entry points return `result.x`
unconditionally, never inspecting `result.success`; there is no
`OptimizationDidNotConvergeError` path in the code. -/
theorem optimizer_returns_solver_x_unchecked
    (m₁ m₂ : List ℚ → OptimizeResult) (n : ℕ) :
    maximize_sharpe_ratio m₁ n = (m₁ (initial_guess n)).x
    ∧ global_minimum_variance m₂ n = (m₂ (initial_guess n)).x :=
  ⟨rfl, rfl⟩

/-- A solver outcome whose iterate violates the budget constraint and the
box bounds. -/
def infeasibleSolver : List ℚ → OptimizeResult :=
  fun _ => { x := [3/2, 0], success := false }

/-- Claim C7, counterexample: an unconverged solver iterate is passed
through unchecked, so the returned weight vector can fail both the
sum-to-one (±1e-6) and the componentwise [0,1] invariants. -/
theorem optimizer_weights_violate_invariant_on_failed_solve :
    global_minimum_variance infeasibleSolver 2 = [3/2, 0]
    ∧ ¬ |(global_minimum_variance infeasibleSolver 2).sum - 1| ≤ 1/1000000
    ∧ ¬ (∀ w ∈ global_minimum_variance infeasibleSolver 2, 0 ≤ w ∧ w ≤ 1) := by
  refine ⟨rfl, ?_, ?_⟩ <;> with_unfolding_all decide

/-- Claim C7, amended: the code adds no check or renormalization, so the
returned weight vector satisfies the sum-to-one and [0,1] invariants exactly
when the solver's own output does. -/
theorem optimizer_weights_invariant_conditional_on_solver
    (m : List ℚ → OptimizeResult) (n : ℕ)
    (hsum : |((m (initial_guess n)).x).sum - 1| ≤ 1/1000000)
    (hbox : ∀ w ∈ (m (initial_guess n)).x, 0 ≤ w ∧ w ≤ 1) :
    |(maximize_sharpe_ratio m n).sum - 1| ≤ 1/1000000
    ∧ (∀ w ∈ maximize_sharpe_ratio m n, 0 ≤ w ∧ w ≤ 1)
    ∧ |(global_minimum_variance m n).sum - 1| ≤ 1/1000000
    ∧ (∀ w ∈ global_minimum_variance m n, 0 ≤ w ∧ w ≤ 1) :=
  ⟨hsum, hbox, hsum, hbox⟩

/-- A convergent solver outcome with a feasible vector. -/
def goodSolver : List ℚ → OptimizeResult :=
  fun _ => { x := [1/2, 1/2], success := true }

/-- Witness for the amended C7 with a feasible solver outcome. -/
theorem optimizer_weights_invariant_conditional_on_solver_witness :
    |(maximize_sharpe_ratio goodSolver 2).sum - 1| ≤ 1/1000000
    ∧ (∀ w ∈ maximize_sharpe_ratio goodSolver 2, 0 ≤ w ∧ w ≤ 1)
    ∧ |(global_minimum_variance goodSolver 2).sum - 1| ≤ 1/1000000
    ∧ (∀ w ∈ global_minimum_variance goodSolver 2, 0 ≤ w ∧ w ≤ 1) :=
  optimizer_weights_invariant_conditional_on_solver goodSolver 2
    (by with_unfolding_all decide) (by with_unfolding_all decide)

/-! ## Claims about error propagation and aggregation -/

/-- Claim C4, counterexample: a failed price fetch is converted by
`get_stock_value` into the default value `0` — indistinguishable from a
genuine zero-price holding — and the top-level interface swallows an error
into a normal completion.  Both contradict "no function silently converts a
failure into a default value such as zero". -/
theorem get_stock_value_failure_becomes_zero :
    get_stock_value (Except.error "DataUnavailableError") 5 = 0
    ∧ get_stock_value (Except.ok 0) 5 = 0
    ∧ portfolio_management_interface (Except.error "ValueError") = Except.ok () := by
  refine ⟨rfl, by with_unfolding_all decide, rfl⟩

/-- Claim C4, amended: `get_stock_value` maps every fetch failure to the
default value `0` (after displaying a message), and the outer handler of
`portfolio_management_interface` turns every error into a silent normal
completion; neither surfaces a typed error or tagged failure. -/
theorem fetch_failure_defaulted_and_interface_swallows (q : ℚ) (e : String)
    (body : Except String Unit) :
    get_stock_value (Except.error e) q = 0
    ∧ portfolio_management_interface (Except.error e) = Except.ok ()
    ∧ ∃ u, portfolio_management_interface body = Except.ok u := by
  refine ⟨rfl, rfl, ?_⟩
  cases body with
  | ok u => exact ⟨u, rfl⟩
  | error e2 => exact ⟨(), rfl⟩

/-- Claim C8: for a single-asset portfolio the normalized weight vector is
`[1]`, and the aggregated portfolio return series equals the asset's return
series element for element. -/
theorem single_asset_unit_weight_identity (rs : List ℚ) (q : ℚ) (hq : q ≠ 0) :
    normalize_weights [q] = [1]
    ∧ portfolio_returns_calc (rs.map (fun r => [r])) (normalize_weights [q]) = rs := by
  have hw : normalize_weights [q] = [1] := by
    simp [normalize_weights, div_self hq]
  refine ⟨hw, ?_⟩
  rw [hw, portfolio_returns_calc,
    if_pos (show ([(1 : ℚ)] : List ℚ).length = 1 from rfl), List.map_map]
  have hfun : ∀ r ∈ rs,
      ((fun row => List.headD row 0 * List.headD [(1 : ℚ)] 0) ∘ fun r => [r]) r = r := by
    intro r _
    simp
  rw [List.map_congr_left hfun]
  simp

/-- Witness for C8 at quantity 3 and the series `[5, -7/2]`. -/
theorem single_asset_unit_weight_identity_witness :
    normalize_weights [3] = [1]
    ∧ portfolio_returns_calc ([5, -7/2].map (fun r => [r])) (normalize_weights [3])
        = [5, -7/2] :=
  single_asset_unit_weight_identity [5, -7/2] 3 (by norm_num)

end Pm
